import Mathlib

/-!
Verification of the connection-level dispatcher and redirect service in
`trip-short-link` (`main.go`).  The network connection is embedded as a pure
state: the bytes still unread from the client and the bytes written so far.
Bytes are natural numbers; a well-formed stream has every byte below 256.
-/

/-- A connection, embedded as the bytes not yet read and the bytes written. -/
structure ConnState where
  input : List Nat
  output : List Nat
deriving Repr, DecidableEq

/-- `io.ReadFull(conn, buf[:n])`: reads exactly `n` bytes, or fails when the
stream ends early. -/
def readFull (n : Nat) (st : ConnState) : Option (List Nat × ConnState) :=
  if n ≤ st.input.length then
    some (st.input.take n, { st with input := st.input.drop n })
  else
    none

/-- `conn.Write(bs)`: appends `bs` to the bytes written on the connection. -/
def writeBytes (bs : List Nat) (st : ConnState) : ConnState :=
  { st with output := st.output ++ bs }

/-- The scratch buffer size in `handleSocks5Handshake`: `make([]byte, 258)`. -/
def socksBufSize : Nat := 258

/-- The `switch atyp` block of `handleSocks5Handshake`: reads the destination
address according to the address type, failing on any other type value.
Returns the connection afterwards (`none` on failure) together with the
lengths of the `buf[:n]` slices it passed to `io.ReadFull`. -/
def socksAddrStep (atyp : Nat) (st : ConnState) : Option ConnState × List Nat :=
  match atyp with
  | 1 =>
    match readFull 4 st with
    | none => (none, [4])
    | some (_, st) => (some st, [4])
  | 3 =>
    match readFull 1 st with
    | none => (none, [1])
    | some (lb, st) =>
      let addrLen := lb.getD 0 0
      match readFull addrLen st with
      | none => (none, [1, addrLen])
      | some (_, st) => (some st, [1, addrLen])
  | 4 =>
    match readFull 16 st with
    | none => (none, [16])
    | some (_, st) => (some st, [16])
  | _ => (none, [])

/-- `handleSocks5Handshake` from `main.go`, instrumented: besides the final
connection state (`none` on any error) it returns, in order, the length of
every slice `buf[:n]` passed to `io.ReadFull` — recorded even when that read
then fails, since Go takes the slice before reading. -/
def socks5Run (st : ConnState) : Option ConnState × List Nat :=
  -- 1. Client greeting: version and nMethods
  match readFull 2 st with
  | none => (none, [2])
  | some (hdr, st) =>
    if hdr.getD 0 0 ≠ 5 then (none, [2])
    else
      let nMethods := hdr.getD 1 0
      -- read the offered methods, content discarded
      match readFull nMethods st with
      | none => (none, [2, nMethods])
      | some (_, st) =>
        -- 2. Server choice: version 5, no authentication
        let st := writeBytes [5, 0] st
        -- 3. Client request header: ver, cmd, rsv, atyp
        match readFull 4 st with
        | none => (none, [2, nMethods, 4])
        | some (req, st) =>
          let cmd := req.getD 1 0
          if cmd ≠ 1 then (none, [2, nMethods, 4])
          else
            let atyp := req.getD 3 0
            match socksAddrStep atyp st with
            | (none, ls) => (none, [2, nMethods, 4] ++ ls)
            | (some st, ls) =>
              -- destination port, read unconditionally
              match readFull 2 st with
              | none => (none, [2, nMethods, 4] ++ ls ++ [2])
              | some (_, st) =>
                -- 4. Server reply: fixed 10-byte success answer
                (some (writeBytes [5, 0, 0, 1, 0, 0, 0, 0, 0, 0] st),
                 [2, nMethods, 4] ++ ls ++ [2])

/-- `handleSocks5Handshake`: the result of the handshake, `none` on error. -/
def handleSocks5Handshake (st : ConnState) : Option ConnState :=
  (socks5Run st).1

/-- The method-selection answer written in step 2: version 5, no auth. -/
def methodSelection : List Nat := [5, 0]

/-- The fixed 10-byte success reply written in step 4: version 5, reply code
0, reserved 0, address type 1, bound address `0.0.0.0`, bound port 0. -/
def socks5Reply : List Nat := [5, 0, 0, 1, 0, 0, 0, 0, 0, 0]

/-- The destination-address encodings the request phase accepts: address
type 1 with four address bytes, address type 3 with a length byte followed
by that many bytes, or address type 4 with sixteen bytes. -/
inductive ValidAddr : Nat → List Nat → Prop
  | ipv4 (a : List Nat) : a.length = 4 → ValidAddr 1 a
  | domain (len : Nat) (d : List Nat) : d.length = len → ValidAddr 3 (len :: d)
  | ipv6 (a : List Nat) : a.length = 16 → ValidAddr 4 a

/-- What `handleConnection` does with a connection: close it, or submit it to
the virtual listener feeding the HTTP server, in the state it then has. -/
inductive ConnOutcome where
  | closed
  | forwarded (st : ConnState)
deriving Repr, DecidableEq

/-- `handleConnection` from `main.go`: peek one byte (closing on end of
stream), run the SOCKS5 handshake when it is 0x05 (closing on handshake
failure), and otherwise hand the connection on with the buffered bytes
intact. -/
def handleConnection (input : List Nat) : ConnOutcome :=
  match input with
  | [] => .closed
  | b :: _ =>
    let st : ConnState := ⟨input, []⟩
    if b = 5 then
      match handleSocks5Handshake st with
      | none => .closed
      | some st₂ => .forwarded st₂
    else
      .forwarded st

/-! ### String helpers used by the HTTP handler (`strings` package) -/

/-- ASCII case folding of one character; `strings.ToLower` restricted to the
ASCII hostnames this service handles. -/
def asciiLowerChar (c : Char) : Char :=
  if 'A' ≤ c ∧ c ≤ 'Z' then Char.ofNat (c.toNat + 32) else c

/-- `strings.ToLower` on an ASCII string. -/
def asciiLower (s : String) : String :=
  ⟨s.data.map asciiLowerChar⟩

/-- `strings.Split(host, ":")[0]`: the part of the host before any port. -/
def stripPort (s : String) : String :=
  ⟨s.data.takeWhile (fun c => c != ':')⟩

/-- `strings.TrimLeft(s, "/")` on a character list. -/
def trimLeftSlashL : List Char → List Char
  | [] => []
  | c :: cs => if c = '/' then trimLeftSlashL cs else c :: cs

/-- `strings.TrimRight(s, "/")` on a character list. -/
def trimRightSlashL (s : List Char) : List Char :=
  (trimLeftSlashL s.reverse).reverse

/-- `strings.ReplaceAll(s, "//", "/")` on a character list: one left-to-right
pass replacing each non-overlapping occurrence of `//` by `/`. -/
def collapseSlashL : List Char → List Char
  | [] => []
  | [c] => [c]
  | c :: c₂ :: cs =>
    if c = '/' ∧ c₂ = '/' then '/' :: collapseSlashL cs
    else c :: collapseSlashL (c₂ :: cs)

/-- Whether two consecutive slashes occur somewhere in the string. -/
def hasDoubleSlash : List Char → Bool
  | c :: c₂ :: cs => (c == '/' && c₂ == '/') || hasDoubleSlash (c₂ :: cs)
  | _ => false

/-- Whether three consecutive slashes occur somewhere in the string. -/
def hasSlashRun3 : List Char → Bool
  | c :: c₂ :: c₃ :: cs =>
    (c == '/' && c₂ == '/' && c₃ == '/') || hasSlashRun3 (c₂ :: c₃ :: cs)
  | _ => false

/-- The path composition of `handleRequest`:
`strings.TrimRight(target, "/") + "/" + strings.TrimLeft(reqPath, "/")`,
then `strings.ReplaceAll(·, "//", "/")`. -/
def joinPaths (targetPath reqPath : String) : String :=
  ⟨collapseSlashL (trimRightSlashL targetPath.data ++ '/' :: trimLeftSlashL reqPath.data)⟩

/-! ### URLs (`net/url`, as used by this service) -/

/-- The fields of `url.URL` that `handleRequest` reads or writes. -/
structure URL where
  scheme : String
  host : String
  path : String
  rawQuery : String
  fragment : String
deriving Repr, DecidableEq

/-- `url.URL.String()` for the URLs this service builds: nonempty scheme,
no user/opaque part, and components that need no percent-escaping.  The
conditional slash reproduces Go's insertion of `/` between a nonempty host
and a rootless path. -/
def urlString (u : URL) : String :=
  u.scheme ++ "://" ++ u.host ++
    (if u.path.data ≠ [] ∧ u.path.data.head? ≠ some '/' ∧ u.host.data ≠ []
      then "/" else "") ++
    u.path ++
    (if u.rawQuery.data = [] then "" else "?" ++ u.rawQuery) ++
    (if u.fragment.data = [] then "" else "#" ++ u.fragment)

/-- Scheme syntax of `net/url`: a letter, then letters, digits, `+`, `-`,
`.`. -/
def isSchemeTail (c : Char) : Bool :=
  c.isAlphanum || c == '+' || c == '-' || c == '.'

/-- Characters we allow in a modelled host: no escaping, no port. -/
def isHostChar (c : Char) : Bool :=
  c.isAlphanum || c == '.' || c == '-'

/-- Characters that survive `EscapedPath` unchanged. -/
def isPlainPathChar (c : Char) : Bool :=
  c.isAlphanum || c == '/' || c == '-' || c == '.' || c == '_' || c == '~'

/-- Splits `scheme : "//" rest` at the first `://`. -/
def splitScheme : List Char → Option (List Char × List Char)
  | [] => none
  | ':' :: '/' :: '/' :: rest => some ([], rest)
  | c :: cs =>
    match splitScheme cs with
    | none => none
    | some (sch, rest) => some (c :: sch, rest)

/-- `url.Parse` restricted to the absolute URLs this service stores:
`scheme://host[/path]` with a well-formed scheme, a nonempty unescaped
host and an unescaped path.  Anything else is reported as a parse
failure. -/
def simpleParse (s : String) : Option URL :=
  match splitScheme s.data with
  | none => none
  | some (sch, rest) =>
    let host := rest.takeWhile (fun c => c != '/')
    let path := rest.dropWhile (fun c => c != '/')
    match sch with
    | [] => none
    | c :: cs =>
      if c.isAlpha && cs.all isSchemeTail && !host.isEmpty &&
          host.all isHostChar && path.all isPlainPathChar then
        some ⟨asciiLower ⟨sch⟩, ⟨host⟩, ⟨path⟩, "", ""⟩
      else
        none

/-! ### The mapping table and the HTTP handler -/

/-- Association-list view of the Go map `shortLinkMap`; insertion overwrites
an existing key, as Go map assignment does. -/
def insertA (m : List (String × String)) (k v : String) : List (String × String) :=
  match m with
  | [] => [(k, v)]
  | (k₂, v₂) :: rest =>
    if k₂ = k then (k, v) :: rest else (k₂, v₂) :: insertA rest k v

/-- Go map lookup `m[k]` with its `found` flag. -/
def lookupA (m : List (String × String)) (k : String) : Option String :=
  match m with
  | [] => none
  | (k₂, v₂) :: rest => if k₂ = k then some v₂ else lookupA rest k

/-- The parts of an incoming `http.Request` that `handleRequest` reads. -/
structure Request where
  host : String
  path : String
  rawQuery : String
  fragment : String
deriving Repr, DecidableEq

/-- The response `handleRequest` sends, by case. -/
inductive HResponse where
  | check
  | pac
  | badRequest
  | notFound (body : String)
  | internalError
  | redirect (location : String)
deriving Repr, DecidableEq

/-- `handleRequest` from `main.go`, with `url.Parse` abstracted as the
oracle `parse` (the rest of the function is translated directly): health
and PAC endpoints first, then 400 without a Host header, 404 when the
lower-cased port-stripped host has no mapping, 500 when the stored target
does not parse, and otherwise a 302 redirect to the recomposed URL. -/
def handleRequest (parse : String → Option URL)
    (table : List (String × String)) (req : Request) : HResponse :=
  if req.path = "/check" ∨ req.path = "/health" then .check
  else if req.path = "/proxy.pac" then .pac
  else if req.host = "" then .badRequest
  else
    let requestedHost := asciiLower (stripPort req.host)
    match lookupA table requestedHost with
    | none =>
      .notFound ("No short link mapping found for \x22" ++ requestedHost ++ "\x22")
    | some targetURL =>
      match parse targetURL with
      | none => .internalError
      | some u =>
        .redirect (urlString
          { u with
            path := joinPaths u.path req.path
            rawQuery := req.rawQuery
            fragment := req.fragment })

/-! ### Loading the mapping table (`loadMappingsFromFile`) -/

/-- A source record, with the fields `loadMappingsFromFile` reads. -/
structure Record where
  shortUrl : String
  longUrl : String
  protocol : String
deriving Repr, DecidableEq

/-- The decoded configuration document. -/
structure APIResponse where
  success : Bool
  message : String
  data : List Record
deriving Repr, DecidableEq

/-- The mutable state `loadMappingsFromFile` may replace: the live table and
the last-successful-load timestamp. -/
structure PSState where
  shortLinkMap : List (String × String)
  lastSyncTime : Nat
deriving Repr, DecidableEq

/-- The `newMap` loop: records with both `shortUrl` and `longUrl` nonempty
are inserted as `lower(shortUrl) ↦ protocol + "://" + longUrl`; the rest are
only logged. -/
def buildMap (records : List Record) : List (String × String) :=
  records.foldl
    (fun m r =>
      if r.shortUrl ≠ "" ∧ r.longUrl ≠ "" then
        insertA m (asciiLower r.shortUrl) (r.protocol ++ "://" ++ r.longUrl)
      else
        m)
    []

/-- `loadMappingsFromFile` from `main.go`.  `body` is the outcome of
`os.ReadFile` plus `json.Unmarshal` (an error, or the decoded document);
`now` is the current time.  Returns the function's error result together
with the state the receiver has afterwards. -/
def loadMappingsFromFile (body : Except String APIResponse) (now : Nat)
    (ps : PSState) : Except String Unit × PSState :=
  match body with
  | .error e => (.error e, ps)
  | .ok apiResp =>
    if !apiResp.success then
      (.error ("config error: " ++ apiResp.message), ps)
    else
      let newMap := buildMap apiResp.data
      if newMap.isEmpty then
        (.error "no valid records found in config file", ps)
      else
        (.ok (), ⟨newMap, now⟩)

/-! ### Helper lemmas -/

theorem readFull_exact {n : Nat} (xs ys : List Nat) (out : List Nat)
    (h : xs.length = n) :
    readFull n ⟨xs ++ ys, out⟩ = some (xs, ⟨ys, out⟩) := by
  subst h
  simp [readFull, List.take_left, List.drop_left]

theorem readFull_some {n : Nat} {st : ConnState} {bs : List Nat}
    {st₂ : ConnState} (h : readFull n st = some (bs, st₂)) :
    bs = st.input.take n ∧ st₂.input = st.input.drop n ∧ st₂.output = st.output := by
  simp only [readFull] at h
  split at h
  · simp only [Option.some.injEq, Prod.mk.injEq] at h
    obtain ⟨hbs, hst⟩ := h
    refine ⟨hbs.symm, ?_, ?_⟩ <;> rw [← hst]
  · exact absurd h (by simp)

theorem getD_zero_or_mem (l : List Nat) (i : Nat) :
    l.getD i 0 = 0 ∨ l.getD i 0 ∈ l := by
  rcases Nat.lt_or_ge i l.length with h | h
  · right
    rw [List.getD_eq_get?, List.get?_eq_get h]
    exact List.get_mem l _ _
  · left
    exact List.getD_eq_default _ _ h

theorem socksAddrStep_ipv4 (a ys out : List Nat) (h : a.length = 4) :
    socksAddrStep 1 ⟨a ++ ys, out⟩ = (some ⟨ys, out⟩, [4]) := by
  simp [socksAddrStep, readFull_exact a ys out h]

theorem socksAddrStep_domain (len : Nat) (d ys out : List Nat)
    (h : d.length = len) :
    socksAddrStep 3 ⟨(len :: d) ++ ys, out⟩ = (some ⟨ys, out⟩, [1, len]) := by
  have h1 : readFull 1 ⟨[len] ++ (d ++ ys), out⟩ = some ([len], ⟨d ++ ys, out⟩) :=
    readFull_exact _ _ _ rfl
  simp only [socksAddrStep, List.cons_append, List.nil_append] at h1 ⊢
  rw [h1]
  simp [readFull_exact d ys out h]

theorem socksAddrStep_ipv6 (a ys out : List Nat) (h : a.length = 16) :
    socksAddrStep 4 ⟨a ++ ys, out⟩ = (some ⟨ys, out⟩, [16]) := by
  simp [socksAddrStep, readFull_exact a ys out h]

theorem socksAddrStep_other (atyp : Nat) (st : ConnState)
    (h1 : atyp ≠ 1) (h3 : atyp ≠ 3) (h4 : atyp ≠ 4) :
    socksAddrStep atyp st = (none, []) := by
  unfold socksAddrStep
  split <;> simp_all

theorem socks5Run_eval (n : Nat) (methods : List Nat) (hm : methods.length = n)
    (ver cmd rsv atyp : Nat) (tail : List Nat) :
    socks5Run ⟨[5, n] ++ (methods ++ ([ver, cmd, rsv, atyp] ++ tail)), []⟩ =
      if cmd ≠ 1 then (none, [2, n, 4])
      else
        match socksAddrStep atyp ⟨tail, [5, 0]⟩ with
        | (none, ls) => (none, [2, n, 4] ++ ls)
        | (some st, ls) =>
          match readFull 2 st with
          | none => (none, [2, n, 4] ++ ls ++ [2])
          | some (_, st) =>
            (some (writeBytes socks5Reply st), [2, n, 4] ++ ls ++ [2]) := by
  have h1 : readFull 2 ⟨[5, n] ++ (methods ++ ([ver, cmd, rsv, atyp] ++ tail)), []⟩
      = some ([5, n], ⟨methods ++ ([ver, cmd, rsv, atyp] ++ tail), []⟩) :=
    readFull_exact _ _ _ rfl
  have h2 : readFull n ⟨methods ++ ([ver, cmd, rsv, atyp] ++ tail), []⟩
      = some (methods, ⟨[ver, cmd, rsv, atyp] ++ tail, []⟩) :=
    readFull_exact _ _ _ hm
  have h3 : readFull 4 ⟨[ver, cmd, rsv, atyp] ++ tail, [5, 0]⟩
      = some ([ver, cmd, rsv, atyp], ⟨tail, [5, 0]⟩) :=
    readFull_exact _ _ _ rfl
  simp only [socks5Run, writeBytes, h1, h2, h3, List.getD_cons_zero,
    List.getD_cons_succ, List.nil_append, socks5Reply, ne_eq,
    not_true_eq_false, if_false, ite_false]

theorem socks5Run_valid_connect (n : Nat) (methods : List Nat)
    (hm : methods.length = n) (ver rsv atyp : Nat) (addr : List Nat)
    (p₁ p₂ : Nat) (rest : List Nat) (ha : ValidAddr atyp addr) :
    (socks5Run
        ⟨[5, n] ++ (methods ++ ([ver, 1, rsv, atyp] ++ (addr ++ ([p₁, p₂] ++ rest)))), []⟩).1
      = some ⟨rest, [5, 0] ++ socks5Reply⟩ := by
  rw [socks5Run_eval n methods hm ver 1 rsv atyp (addr ++ ([p₁, p₂] ++ rest))]
  have hport : readFull 2 ⟨p₁ :: p₂ :: rest, [5, 0]⟩
      = some ([p₁, p₂], ⟨rest, [5, 0]⟩) := by
    simpa using readFull_exact [p₁, p₂] rest [5, 0] rfl
  cases ha with
  | ipv4 _ h4 =>
    rw [socksAddrStep_ipv4 addr ([p₁, p₂] ++ rest) [5, 0] h4]
    simp [hport, writeBytes]
  | domain len d hd =>
    rw [socksAddrStep_domain len d ([p₁, p₂] ++ rest) [5, 0] hd]
    simp [hport, writeBytes]
  | ipv6 _ h16 =>
    rw [socksAddrStep_ipv6 addr ([p₁, p₂] ++ rest) [5, 0] h16]
    simp [hport, writeBytes]

theorem collapseSlashL_head (s : List Char) :
    (collapseSlashL s).head? = s.head? := by
  match s with
  | [] => rfl
  | [c] => rfl
  | c :: c₂ :: cs =>
    by_cases h : c = '/' ∧ c₂ = '/'
    · rw [collapseSlashL, if_pos h]
      simp [h.1]
    · rw [collapseSlashL, if_neg h]
      rfl

theorem hasSlashRun3_tail (c : Char) (cs : List Char)
    (h : hasSlashRun3 (c :: cs) = false) : hasSlashRun3 cs = false := by
  match cs with
  | [] => rfl
  | [c₂] => rfl
  | c₂ :: c₃ :: cs₂ =>
    rw [hasSlashRun3] at h
    simpa using (Bool.or_eq_false_iff.mp h).2

theorem collapse_no_double :
    ∀ (s : List Char), hasSlashRun3 s = false →
      hasDoubleSlash (collapseSlashL s) = false
  | [], _ => rfl
  | [c], _ => rfl
  | c :: c₂ :: cs, h => by
    by_cases h12 : c = '/' ∧ c₂ = '/'
    · rw [collapseSlashL, if_pos h12]
      obtain ⟨hc, hc2⟩ := h12
      subst hc
      subst hc2
      have hcs : hasSlashRun3 cs = false :=
        hasSlashRun3_tail _ _ (hasSlashRun3_tail _ _ h)
      have hrec := collapse_no_double cs hcs
      cases hcol : collapseSlashL cs with
      | nil => rfl
      | cons x xs =>
        have hx : cs.head? = some x := by
          rw [← collapseSlashL_head, hcol]
          rfl
        cases cs with
        | nil => simp at hx
        | cons y cs₂ =>
          have hxy : y = x := by simpa using hx
          subst hxy
          have hx3 : y ≠ '/' := by
            intro hx'
            subst hx'
            rw [hasSlashRun3] at h
            simp at h
          rw [hasDoubleSlash]
          rw [hcol] at hrec
          simp [hx3, hrec]
    · rw [collapseSlashL, if_neg h12]
      have hrec := collapse_no_double (c₂ :: cs) (hasSlashRun3_tail _ _ h)
      cases hcol : collapseSlashL (c₂ :: cs) with
      | nil => rfl
      | cons x xs =>
        have hx : x = c₂ := by
          have h' := collapseSlashL_head (c₂ :: cs)
          rw [hcol] at h'
          simpa using h'
        subst hx
        rw [hasDoubleSlash]
        rw [hcol] at hrec
        have h12b : (c == '/' && x == '/') = false := by
          rcases not_and_or.mp h12 with hc | hc <;> simp [hc]
        simp [h12b, hrec]

theorem socksAddrStep_lens_bound (atyp : Nat) (st : ConnState)
    (hb : ∀ b ∈ st.input, b < 256) :
    ∀ l ∈ (socksAddrStep atyp st).2, l ≤ 255 := by
  unfold socksAddrStep
  split
  · split <;> intro l hl <;> simp at hl <;> omega
  · split
    · intro l hl
      simp at hl
      omega
    · rename_i lb st₂ heq
      have hlb := (readFull_some heq).1
      have hsub : ∀ x ∈ lb, x ∈ st.input := by
        intro x hx
        rw [hlb] at hx
        exact List.take_subset _ _ hx
      have hlen : lb.getD 0 0 ≤ 255 := by
        rcases getD_zero_or_mem lb 0 with h0 | hmem
        · omega
        · have := hb _ (hsub _ hmem)
          omega
      dsimp only
      split <;> intro l hl <;>
        simp only [List.mem_cons, List.not_mem_nil, or_false] at hl <;>
        rcases hl with h | h <;> omega
  · split <;> intro l hl <;> simp at hl <;> omega
  · intro l hl
    simp at hl

theorem socks5Run_lens_bound (st : ConnState) (hb : ∀ b ∈ st.input, b < 256) :
    ∀ l ∈ (socks5Run st).2, l ≤ 255 := by
  unfold socks5Run
  split
  · intro l hl
    simp only [List.mem_cons, List.not_mem_nil, or_false] at hl
    omega
  · rename_i hdr st₁ heq2
    obtain ⟨hhdr, hin1, -⟩ := readFull_some heq2
    have hsub2 : ∀ x ∈ hdr, x ∈ st.input := by
      intro x hx
      rw [hhdr] at hx
      exact List.take_subset _ _ hx
    have hn : hdr.getD 1 0 ≤ 255 := by
      rcases getD_zero_or_mem hdr 1 with h0 | hmem
      · omega
      · have := hb _ (hsub2 _ hmem)
        omega
    have hb1 : ∀ b ∈ st₁.input, b < 256 := by
      intro b hbm
      rw [hin1] at hbm
      exact hb _ (List.drop_subset _ _ hbm)
    split
    · intro l hl
      simp only [List.mem_cons, List.not_mem_nil, or_false] at hl
      omega
    · dsimp only
      split
      · intro l hl
        simp only [List.mem_cons, List.not_mem_nil, or_false] at hl
        rcases hl with h | h <;> omega
      · rename_i ms st₂ heqm
        obtain ⟨-, hin2, -⟩ := readFull_some heqm
        have hb2 : ∀ b ∈ (writeBytes [5, 0] st₂).input, b < 256 := by
          intro b hbm
          rw [writeBytes] at hbm
          rw [hin2] at hbm
          exact hb1 _ (List.drop_subset _ _ hbm)
        split
        · intro l hl
          simp only [List.mem_cons, List.not_mem_nil, or_false] at hl
          rcases hl with h | h | h <;> omega
        · rename_i req st₃ heq4
          obtain ⟨-, hin3, -⟩ := readFull_some heq4
          have hb3 : ∀ b ∈ st₃.input, b < 256 := by
            intro b hbm
            rw [hin3] at hbm
            exact hb2 _ (List.drop_subset _ _ hbm)
          split
          · intro l hl
            simp only [List.mem_cons, List.not_mem_nil, or_false] at hl
            rcases hl with h | h | h <;> omega
          · split
            · rename_i ls heqa
              have hls : ∀ l ∈ ls, l ≤ 255 := by
                have h' := socksAddrStep_lens_bound (req.getD 3 0) st₃ hb3
                rw [heqa] at h'
                exact h'
              intro l hl
              simp only [List.mem_append, List.mem_cons, List.not_mem_nil,
                or_false] at hl
              rcases hl with (h | h | h) | h
              · omega
              · omega
              · omega
              · exact hls _ h
            · rename_i st₄ ls heqa
              have hls : ∀ l ∈ ls, l ≤ 255 := by
                have h' := socksAddrStep_lens_bound (req.getD 3 0) st₃ hb3
                rw [heqa] at h'
                exact h'
              split <;>
                (intro l hl
                 simp only [List.mem_append, List.mem_cons, List.not_mem_nil,
                   or_false] at hl
                 rcases hl with ((h | h | h) | h) | h
                 · omega
                 · omega
                 · omega
                 · exact hls _ h
                 · omega)

/-! ### Claims -/

/-- C1: for every stream that starts with 0x05 and encodes a syntactically
valid greeting (method count `n` with `n` method bytes) followed by a valid
CONNECT request (command 1, a valid address encoding, 2 port bytes), the
handshake succeeds, the connection carries the 2-byte method selection
followed by exactly the fixed 10-byte reply
`[5, 0, 0, 1, 0, 0, 0, 0, 0, 0]`, and the read position is at the first
byte after the port field. -/
theorem socks5_handshake_success (n : Nat) (methods : List Nat)
    (ver rsv atyp : Nat) (addr : List Nat) (p₁ p₂ : Nat) (rest : List Nat)
    (hm : methods.length = n) (ha : ValidAddr atyp addr) :
    handleSocks5Handshake
        ⟨[5, n] ++ (methods ++ ([ver, 1, rsv, atyp] ++ (addr ++ ([p₁, p₂] ++ rest)))), []⟩
      = some ⟨rest, methodSelection ++ socks5Reply⟩ := by
  unfold handleSocks5Handshake
  rw [socks5Run_valid_connect n methods hm ver rsv atyp addr p₁ p₂ rest ha]
  rfl

theorem socks5_handshake_success_witness :
    handleSocks5Handshake ⟨[5, 1, 0, 5, 1, 0, 1, 10, 0, 0, 1, 0, 80, 71], []⟩
      = some ⟨[71], methodSelection ++ socks5Reply⟩ :=
  socks5_handshake_success 1 [0] 5 0 1 [10, 0, 0, 1] 0 80 [71] rfl (.ipv4 _ rfl)

/-- C2: a connection whose first byte is not 0x05 is forwarded to the HTTP
layer with its byte stream intact — nothing consumed, nothing written. -/
theorem handleConnection_non_socks5 (b : Nat) (input : List Nat)
    (hb : b ≠ 5) :
    handleConnection (b :: input) = .forwarded ⟨b :: input, []⟩ := by
  simp [handleConnection, hb]

theorem handleConnection_non_socks5_witness :
    handleConnection (71 :: [69, 84]) = .forwarded ⟨71 :: [69, 84], []⟩ :=
  handleConnection_non_socks5 71 [69, 84] (by decide)

/-- C4 counterexample: a connection whose first byte is 0x04 is NOT closed —
`handleConnection` only enters the SOCKS5 path on 0x05, so the 0x04 stream
is forwarded unconsumed to the HTTP layer. -/
theorem handleConnection_socks4_cx :
    handleConnection [4, 1, 2, 3] = .forwarded ⟨[4, 1, 2, 3], []⟩ ∧
      handleConnection [4, 1, 2, 3] ≠ .closed := by
  exact ⟨rfl, by decide⟩

/-- C4 (amended): every connection whose first byte is 0x04 is forwarded to
the HTTP layer unconsumed and unaltered, not closed; the handshake's
greeting-version check is unreachable for such streams because only
first-byte-0x05 streams enter the handshake. -/
theorem handleConnection_socks4_forwarded (rest : List Nat) :
    handleConnection (4 :: rest) = .forwarded ⟨4 :: rest, []⟩ := by
  simp [handleConnection]

/-- C7: after the 4-byte request header, a command other than 1 fails the
handshake; with command 1, address type 1 reads exactly 4 address bytes,
address type 3 reads 1 length byte and then exactly that many bytes,
address type 4 reads exactly 16 bytes, any other address type fails, and
every non-failing case then reads exactly 2 port bytes — visible in the
exact sequence of read-slice lengths `socks5Run` records. -/
theorem socks5_request_dispatch (n : Nat) (methods : List Nat)
    (hm : methods.length = n) (ver rsv : Nat) :
    (∀ cmd atyp tail, cmd ≠ 1 →
        socks5Run ⟨[5, n] ++ (methods ++ ([ver, cmd, rsv, atyp] ++ tail)), []⟩
          = (none, [2, n, 4])) ∧
    (∀ a p₁ p₂ rest, a.length = 4 →
        socks5Run
            ⟨[5, n] ++ (methods ++ ([ver, 1, rsv, 1] ++ (a ++ ([p₁, p₂] ++ rest)))), []⟩
          = (some ⟨rest, methodSelection ++ socks5Reply⟩, [2, n, 4, 4, 2])) ∧
    (∀ len d p₁ p₂ rest, d.length = len →
        socks5Run
            ⟨[5, n] ++ (methods ++ ([ver, 1, rsv, 3] ++ ((len :: d) ++ ([p₁, p₂] ++ rest)))), []⟩
          = (some ⟨rest, methodSelection ++ socks5Reply⟩, [2, n, 4, 1, len, 2])) ∧
    (∀ a p₁ p₂ rest, a.length = 16 →
        socks5Run
            ⟨[5, n] ++ (methods ++ ([ver, 1, rsv, 4] ++ (a ++ ([p₁, p₂] ++ rest)))), []⟩
          = (some ⟨rest, methodSelection ++ socks5Reply⟩, [2, n, 4, 16, 2])) ∧
    (∀ atyp tail, atyp ≠ 1 → atyp ≠ 3 → atyp ≠ 4 →
        socks5Run ⟨[5, n] ++ (methods ++ ([ver, 1, rsv, atyp] ++ tail)), []⟩
          = (none, [2, n, 4])) := by
  refine ⟨?_, ?_, ?_, ?_, ?_⟩
  · intro cmd atyp tail hcmd
    rw [socks5Run_eval n methods hm ver cmd rsv atyp tail, if_pos hcmd]
  · intro a p₁ p₂ rest h4
    have hport : readFull 2 ⟨p₁ :: p₂ :: rest, [5, 0]⟩
        = some ([p₁, p₂], ⟨rest, [5, 0]⟩) := by
      simpa using readFull_exact [p₁, p₂] rest [5, 0] rfl
    rw [socks5Run_eval n methods hm ver 1 rsv 1 (a ++ ([p₁, p₂] ++ rest)),
      socksAddrStep_ipv4 a ([p₁, p₂] ++ rest) [5, 0] h4]
    simp [hport, writeBytes, methodSelection]
  · intro len d p₁ p₂ rest hd
    have hport : readFull 2 ⟨p₁ :: p₂ :: rest, [5, 0]⟩
        = some ([p₁, p₂], ⟨rest, [5, 0]⟩) := by
      simpa using readFull_exact [p₁, p₂] rest [5, 0] rfl
    rw [socks5Run_eval n methods hm ver 1 rsv 3 ((len :: d) ++ ([p₁, p₂] ++ rest)),
      socksAddrStep_domain len d ([p₁, p₂] ++ rest) [5, 0] hd]
    simp [hport, writeBytes, methodSelection]
  · intro a p₁ p₂ rest h16
    have hport : readFull 2 ⟨p₁ :: p₂ :: rest, [5, 0]⟩
        = some ([p₁, p₂], ⟨rest, [5, 0]⟩) := by
      simpa using readFull_exact [p₁, p₂] rest [5, 0] rfl
    rw [socks5Run_eval n methods hm ver 1 rsv 4 (a ++ ([p₁, p₂] ++ rest)),
      socksAddrStep_ipv6 a ([p₁, p₂] ++ rest) [5, 0] h16]
    simp [hport, writeBytes, methodSelection]
  · intro atyp tail ha1 ha3 ha4
    rw [socks5Run_eval n methods hm ver 1 rsv atyp tail,
      socksAddrStep_other atyp ⟨tail, [5, 0]⟩ ha1 ha3 ha4]
    simp

theorem socks5_request_dispatch_witness :
    socks5Run ⟨[5, 1, 0, 5, 1, 0, 3, 4, 105, 100, 101, 118, 0, 80, 72], []⟩
      = (some ⟨[72], methodSelection ++ socks5Reply⟩, [2, 1, 4, 1, 4, 2]) :=
  (socks5_request_dispatch 1 [0] rfl 5 0).2.2.1 4 [105, 100, 101, 118] 0 80 [72] rfl

/-- C9: the version byte of the CONNECT request header is never inspected —
the run of the handshake is unchanged under any substitution of that byte,
and for a well-formed CONNECT request (command 1, valid address) the
handshake succeeds whatever that byte is. -/
theorem socks5_version_byte_unchecked (n : Nat) (methods : List Nat)
    (hm : methods.length = n) :
    (∀ ver ver₂ cmd rsv atyp tail,
        socks5Run ⟨[5, n] ++ (methods ++ ([ver, cmd, rsv, atyp] ++ tail)), []⟩
          = socks5Run ⟨[5, n] ++ (methods ++ ([ver₂, cmd, rsv, atyp] ++ tail)), []⟩) ∧
    (∀ ver rsv atyp addr p₁ p₂ rest, ValidAddr atyp addr →
        (handleSocks5Handshake
            ⟨[5, n] ++ (methods ++ ([ver, 1, rsv, atyp] ++ (addr ++ ([p₁, p₂] ++ rest)))), []⟩).isSome
          = true) := by
  constructor
  · intro ver ver₂ cmd rsv atyp tail
    rw [socks5Run_eval n methods hm ver cmd rsv atyp tail,
      socks5Run_eval n methods hm ver₂ cmd rsv atyp tail]
  · intro ver rsv atyp addr p₁ p₂ rest ha
    unfold handleSocks5Handshake
    rw [socks5Run_valid_connect n methods hm ver rsv atyp addr p₁ p₂ rest ha]
    rfl

theorem socks5_version_byte_unchecked_witness :
    (handleSocks5Handshake ⟨[5, 1, 0, 99, 1, 0, 1, 10, 0, 0, 1, 0, 80], []⟩).isSome
      = true :=
  (socks5_version_byte_unchecked 1 [0] rfl).2 99 0 1 [10, 0, 0, 1] 0 80 []
    (.ipv4 _ rfl)

/-- C10: on any byte stream (all bytes below 256), every slice
`buf[:n]` that `handleSocks5Handshake` passes to `io.ReadFull` has length
at most 255, within the 258-byte scratch buffer: the two data-dependent
lengths are single unsigned bytes and all fixed lengths are at most 16. -/
theorem socks5_read_slices_bounded (input : List Nat)
    (hb : ∀ b ∈ input, b < 256) :
    ∀ l ∈ (socks5Run ⟨input, []⟩).2, l ≤ 255 ∧ l < socksBufSize := by
  intro l hl
  have h := socks5Run_lens_bound ⟨input, []⟩ hb l hl
  refine ⟨h, ?_⟩
  unfold socksBufSize
  omega

theorem socks5_read_slices_bounded_witness :
    (4 : Nat) ≤ 255 ∧ 4 < socksBufSize :=
  socks5_read_slices_bounded [5, 1, 0, 5, 1, 0, 3, 4, 105, 100, 101, 118, 0, 80]
    (by decide) 4 (by decide)

/-- C3 counterexample: with the documented table, a request for path
`/foo///bar` is redirected to `http://internal.example.com/app/foo//bar`,
whose path still contains a duplicate slash — the single replacement pass
of `//` by `/` leaves `//` behind on a run of three slashes. -/
theorem handleRequest_double_slash_cx :
    handleRequest simpleParse [("idev", "http://internal.example.com/app")]
        ⟨"idev", "/foo///bar", "", ""⟩
      = .redirect "http://internal.example.com/app/foo//bar" ∧
    hasDoubleSlash "/app/foo//bar".data = true := by
  exact ⟨by decide, by decide⟩

/-- C3 (amended): a request whose lower-cased, port-stripped host is mapped
to a target that parses yields a 302 redirect to the target with its path
replaced by the stored path joined to the request path by a single
separating slash and one left-to-right pass replacing `//` by `/`, and the
request's query string and fragment carried over unchanged; the joined path
is duplicate-slash-free whenever it contains no run of three or more
slashes. -/
theorem handleRequest_redirect_composition (parse : String → Option URL)
    (table : List (String × String)) (req : Request) (t : String) (u : URL)
    (hc : req.path ≠ "/check") (hh : req.path ≠ "/health")
    (hp : req.path ≠ "/proxy.pac") (hhost : req.host ≠ "")
    (hlook : lookupA table (asciiLower (stripPort req.host)) = some t)
    (hparse : parse t = some u) :
    handleRequest parse table req
      = .redirect (urlString
          ⟨u.scheme, u.host, joinPaths u.path req.path, req.rawQuery, req.fragment⟩) ∧
    (hasSlashRun3 (trimRightSlashL u.path.data ++ '/' :: trimLeftSlashL req.path.data)
        = false →
      hasDoubleSlash (joinPaths u.path req.path).data = false) := by
  constructor
  · have h1 : ¬(req.path = "/check" ∨ req.path = "/health") := by
      simp [hc, hh]
    unfold handleRequest
    rw [if_neg h1, if_neg hp, if_neg hhost]
    simp only [hlook, hparse]
  · intro h3
    unfold joinPaths
    exact collapse_no_double _ h3

theorem handleRequest_redirect_composition_witness :
    handleRequest simpleParse [("idev", "http://internal.example.com/app")]
        ⟨"idev", "/foo", "x=1", ""⟩
      = .redirect "http://internal.example.com/app/foo?x=1" := by
  have h := (handleRequest_redirect_composition simpleParse
      [("idev", "http://internal.example.com/app")] ⟨"idev", "/foo", "x=1", ""⟩
      "http://internal.example.com/app"
      ⟨"http", "internal.example.com", "/app", "", ""⟩
      (by decide) (by decide) (by decide) (by decide) (by decide) (by decide)).1
  exact h.trans (by decide)

/-- C5: a request for a path other than `/check`, `/health` and
`/proxy.pac` is answered with 400 exactly when the Host header is empty,
404 (with a body naming the lower-cased, port-stripped host) exactly when
that host has no entry in the table, 500 exactly when the stored target
fails to parse, and a 302 redirect exactly in the remaining case. -/
theorem handleRequest_response_cases (parse : String → Option URL)
    (table : List (String × String)) (req : Request)
    (hc : req.path ≠ "/check") (hh : req.path ≠ "/health")
    (hp : req.path ≠ "/proxy.pac") :
    (handleRequest parse table req = .badRequest ↔ req.host = "") ∧
    (handleRequest parse table req
        = .notFound ("No short link mapping found for \x22"
            ++ asciiLower (stripPort req.host) ++ "\x22")
      ↔ req.host ≠ "" ∧ lookupA table (asciiLower (stripPort req.host)) = none) ∧
    (handleRequest parse table req = .internalError
      ↔ req.host ≠ "" ∧
          ∃ t, lookupA table (asciiLower (stripPort req.host)) = some t ∧
            parse t = none) ∧
    ((∃ loc, handleRequest parse table req = .redirect loc)
      ↔ req.host ≠ "" ∧
          ∃ t u, lookupA table (asciiLower (stripPort req.host)) = some t ∧
            parse t = some u) := by
  have h1 : ¬(req.path = "/check" ∨ req.path = "/health") := by
    simp [hc, hh]
  unfold handleRequest
  rw [if_neg h1, if_neg hp]
  by_cases hhost : req.host = ""
  · simp [hhost]
  · rw [if_neg hhost]
    cases hl : lookupA table (asciiLower (stripPort req.host)) with
    | none => simp [hl, hhost]
    | some t =>
      cases hpar : parse t with
      | none => simp [hl, hhost, hpar]
      | some u => simp [hl, hhost, hpar]

theorem handleRequest_response_cases_witness :
    handleRequest simpleParse [("idev", "http://internal.example.com/app")]
        ⟨"unknown", "/foo", "", ""⟩
      = .notFound "No short link mapping found for \x22unknown\x22" := by
  have h := ((handleRequest_response_cases simpleParse
      [("idev", "http://internal.example.com/app")] ⟨"unknown", "/foo", "", ""⟩
      (by decide) (by decide) (by decide)).2.1).mpr ⟨by decide, by decide⟩
  exact h.trans (by decide)

/-- C6: a load attempt that fails — unreadable or unparsable document,
`success: false`, or zero usable records — returns an error and leaves the
table and the last-load timestamp exactly as they were; the state is
replaced (by the newly built table and the current time) only on a fully
successful load. -/
theorem loadMappings_atomicity (body : Except String APIResponse) (now : Nat)
    (ps : PSState) :
    (∀ e, (loadMappingsFromFile body now ps).1 = .error e →
        (loadMappingsFromFile body now ps).2 = ps) ∧
    (∀ e, body = .error e →
        loadMappingsFromFile body now ps = (.error e, ps)) ∧
    (∀ resp, body = .ok resp → resp.success = false →
        loadMappingsFromFile body now ps
          = (.error ("config error: " ++ resp.message), ps)) ∧
    (∀ resp, body = .ok resp → resp.success = true → buildMap resp.data = [] →
        loadMappingsFromFile body now ps
          = (.error "no valid records found in config file", ps)) ∧
    (∀ resp, body = .ok resp → resp.success = true → buildMap resp.data ≠ [] →
        loadMappingsFromFile body now ps
          = (.ok (), ⟨buildMap resp.data, now⟩)) := by
  refine ⟨?_, ?_, ?_, ?_, ?_⟩
  · intro e herr
    cases body with
    | error e₂ => rfl
    | ok resp =>
      by_cases hs : resp.success
      · by_cases hempty : (buildMap resp.data).isEmpty
        · simp [loadMappingsFromFile, hs, hempty]
        · simp [loadMappingsFromFile, hs, hempty] at herr
      · simp [loadMappingsFromFile, hs]
  · intro e hbody
    subst hbody
    rfl
  · intro resp hbody hs
    subst hbody
    simp [loadMappingsFromFile, hs]
  · intro resp hbody hs hempty
    subst hbody
    simp [loadMappingsFromFile, hs, List.isEmpty_iff.mpr hempty]
  · intro resp hbody hs hne
    subst hbody
    have : (buildMap resp.data).isEmpty = false := by
      simpa [List.isEmpty_iff] using hne
    simp [loadMappingsFromFile, hs, this]

theorem loadMappings_atomicity_witness :
    (loadMappingsFromFile (.error "read failed") 7 ⟨[("a", "b")], 3⟩).2
      = ⟨[("a", "b")], 3⟩ :=
  (loadMappings_atomicity (.error "read failed") 7 ⟨[("a", "b")], 3⟩).1
    "read failed" rfl
